import Mathlib

/-!
Verification of the fractal-flake snowflake-style identifier generator
(`src/lib.rs`).

The Rust source is shallowly embedded:

* machine integers (`u16`, `u64`, `u128`) become `Nat`, with an explicit
  `% 2 ^ w` exactly where the source truncates (the `as u64` cast and the
  `<<=` shift inside `generate`, and the `+= 1` on the `u64` sequence);
* strings become `List Char` (the source slices by byte offset but counts
  by `chars()`, which coincide on the single-byte content exercised here);
* wall-clock reads (`SystemTime::now().duration_since(UNIX_EPOCH).as_millis()`)
  become a `clock : Nat → Nat` trace indexed by read order; the busy-wait
  loop in `check_sequence` is given explicit fuel and yields `none` when the
  clock never advances within the fuel bound, modelling non-termination;
* the HTTP round-trip inside `FlakeSeed::sync` is an external effect; its
  outcome (network failure, undecodable body, or a decoded `epoch` string)
  is passed to `sync` as a `SyncResult` argument, and the rest of `sync`
  follows the source;
* `FlakeSeed::from_file` is modelled on the file contents (the `fs` read and
  its `IOError` path are outside the embedding); its `loop` advances `f_ptr`
  by at least one per iteration, so fuel `contents.length + 1` is never
  exhausted and the `fuel = 0` fallback is unreachable.
-/

namespace FractalFlake

/-- Error enum `FractalError` from the source, minus the `IOError` payload
(the `std::io::Error` it wraps lives outside the embedding). -/
inductive FractalError where
  | MissingEquals (line : Nat)
  | InvalidPort (line : Nat) (value : List Char)
  | InvalidNode (line : Nat) (value : List Char)
  | InvalidEpoch (line : Nat) (value : List Char)
  | NetworkError (host : List Char) (port : Nat)
  | DeserialisationError
  | InvalidSyncEpochRecived
  | ErrorValue
  deriving DecidableEq

/-- Struct `FlakeSeed`: `sync_host : String`, `sync_port : u16`,
`node_id : u64`, `epoch : u128`. -/
structure FlakeSeed where
  sync_host : List Char
  sync_port : Nat
  node_id : Nat
  epoch : Nat
  deriving DecidableEq

/-- Constructor `FlakeSeed::new`: zero `node_id` and `epoch`. -/
def FlakeSeed.new (sync_host : List Char) (sync_port : Nat) : FlakeSeed :=
  { sync_host := sync_host, sync_port := sync_port, node_id := 0, epoch := 0 }

/-- Whitespace test used by `str::trim`, restricted to the ASCII whitespace
characters that can occur in the embedded `List Char` inputs. -/
def is_ws (c : Char) : Bool :=
  c == ' ' || c == '\t' || c == '\n' || c == '\r'

/-- Embedding of `str::trim`: drop leading and trailing whitespace. -/
def trim (s : List Char) : List Char :=
  ((s.dropWhile is_ws).reverse.dropWhile is_ws).reverse

/-- Method `FlakeSeed::get_line`: starting at `offset`, count characters up
to (not including) the next newline, slice them out, advance the offset past
the newline, and trim the slice. Returns the trimmed line and the new
offset. -/
def get_line (buffer : List Char) (offset : Nat) : List Char × Nat :=
  let rest := buffer.drop offset
  let count := (rest.takeWhile (fun c => c != '\n')).length
  (trim (rest.take count), offset + count + 1)

/-- Method `FlakeSeed::split_line`: count characters before the first `=`;
if no `=` exists (count reaches the whole length) fail, otherwise return the
parts strictly before and strictly after the first `=`. -/
def split_line (buffer : List Char) : Option (List Char × List Char) :=
  let count := (buffer.takeWhile (fun c => c != '=')).length
  if count ≥ buffer.length then none
  else some (buffer.take count, buffer.drop (count + 1))

/-- Rust `str::parse::<uN>` for an unsigned integer type with maximum value
`max`: an optional leading `+`, then at least one ASCII digit, and the value
must not exceed `max`; anything else is a parse error (`none`). -/
def parse_uint (s : List Char) (max : Nat) : Option Nat :=
  let digits :=
    match s with
    | '+' :: rest => rest
    | _ => s
  if digits.isEmpty then none
  else if digits.all (fun c => c.isDigit) then
    let v := digits.foldl (fun acc c => acc * 10 + (c.toNat - 48)) 0
    if v ≤ max then some v else none
  else none

/-- Loop body of `FlakeSeed::from_file`, with explicit fuel standing in for
the source's unbounded `loop`. Each iteration advances `f_ptr` by at least
one, so with fuel `contents.length + 1` the `fuel = 0` branch is
unreachable. Recognized keys assign the matching seed field; unknown keys
are ignored; a line without `=` aborts with `MissingEquals`, and a failing
field parse aborts with the matching error carrying the line number and raw
value. -/
def from_file_loop (contents : List Char) (seed : FlakeSeed)
    (f_ptr line_number : Nat) : Nat → Except FractalError FlakeSeed
  | 0 => Except.error FractalError.ErrorValue
  | fuel + 1 =>
    if f_ptr ≥ contents.length then Except.ok seed
    else
      let r := get_line contents f_ptr
      match split_line r.1 with
      | none => Except.error (FractalError.MissingEquals line_number)
      | some (lhs, rhs) =>
        if lhs = ("host".toList) then
          from_file_loop contents { seed with sync_host := rhs } r.2 (line_number + 1) fuel
        else if lhs = ("port".toList) then
          match parse_uint rhs 65535 with
          | none => Except.error (FractalError.InvalidPort line_number rhs)
          | some p =>
            from_file_loop contents { seed with sync_port := p } r.2 (line_number + 1) fuel
        else if lhs = ("node".toList) then
          match parse_uint rhs (2 ^ 64 - 1) with
          | none => Except.error (FractalError.InvalidNode line_number rhs)
          | some p =>
            from_file_loop contents { seed with node_id := p } r.2 (line_number + 1) fuel
        else if lhs = ("epoch".toList) then
          match parse_uint rhs (2 ^ 128 - 1) with
          | none => Except.error (FractalError.InvalidEpoch line_number rhs)
          | some p =>
            from_file_loop contents { seed with epoch := p } r.2 (line_number + 1) fuel
        else
          from_file_loop contents seed r.2 (line_number + 1) fuel

/-- Method `FlakeSeed::from_file`, applied to the contents of the file:
start from `FlakeSeed::new("", 0)` at offset `0`, line number `1`. -/
def from_file (contents : List Char) : Except FractalError FlakeSeed :=
  from_file_loop contents (FlakeSeed.new [] 0) 0 1 (contents.length + 1)

/-- Outcome of the HTTP round-trip performed inside `FlakeSeed::sync`: the
request failed, the body failed to deserialize as `SyncResponse`, or it
yielded the `epoch` string of a `SyncResponse`. -/
inductive SyncResult where
  | netError
  | deserError
  | response (epoch : List Char)
  deriving DecidableEq

/-- Method `FlakeSeed::sync` on `&mut self`: the pair holds the returned
`Result` and the seed state after the call. A network failure maps to
`NetworkError` with the seed's host and port, an undecodable body to
`DeserialisationError`, an `epoch` string that does not parse as `u128` to
`InvalidSyncEpochRecived`; on success the parsed value is written to
`epoch`. -/
def sync (seed : FlakeSeed) (r : SyncResult) :
    Except FractalError Unit × FlakeSeed :=
  match r with
  | SyncResult.netError =>
    (Except.error (FractalError.NetworkError seed.sync_host seed.sync_port), seed)
  | SyncResult.deserError =>
    (Except.error FractalError.DeserialisationError, seed)
  | SyncResult.response e =>
    match parse_uint e (2 ^ 128 - 1) with
    | none => (Except.error FractalError.InvalidSyncEpochRecived, seed)
    | some p => (Except.ok (), { seed with epoch := p })

/-- Struct `FlakeGenerator`: `epoch : u128`, `node_id : u64`,
`thread_id : u64`, `sequence : u64`, `last_time : u128`. -/
structure FlakeGenerator where
  epoch : Nat
  node_id : Nat
  thread_id : Nat
  sequence : Nat
  last_time : Nat
  deriving DecidableEq

/-- Constructor `FlakeGenerator::new`: store the three identity fields and
zero `sequence` and `last_time`. -/
def FlakeGenerator.new (epoch node_id thread_id : Nat) : FlakeGenerator :=
  { epoch := epoch, node_id := node_id, thread_id := thread_id,
    sequence := 0, last_time := 0 }

/-- Method `FlakeSeed::fracture`: seal a seed and a caller-chosen thread id
into a fresh generator. -/
def FlakeSeed.fracture (seed : FlakeSeed) (thread_id : Nat) : FlakeGenerator :=
  FlakeGenerator.new seed.epoch seed.node_id thread_id

/-- Wall-clock trace: `clock n` is the millisecond value returned by the
`n`-th `SystemTime::now().duration_since(UNIX_EPOCH).as_millis()` read. -/
abbrev Clock := Nat → Nat

/-- Busy-wait loop `while now() <= last_time {}` of `check_sequence`:
starting at read index `i`, return the index of the first read strictly
above `lt`, or `none` when the fuel bound is exhausted first (the loop is
still spinning). -/
def firstExceed (clock : Clock) (lt : Nat) (i : Nat) : Nat → Option Nat
  | 0 => none
  | fuel + 1 => if lt < clock i then some i else firstExceed clock lt (i + 1) fuel

/-- Method `FlakeGenerator::check_sequence`. If the stored sequence exceeds
4095, spin until a clock read strictly exceeds `last_time` and reset the
sequence to zero (`none` when the spin does not finish within the fuel);
otherwise read the clock once and reset the sequence exactly when the read
strictly exceeds `last_time`. Returns the updated generator and the index
of the next unconsumed clock read. -/
def check_sequence (g : FlakeGenerator) (clock : Clock) (i fuel : Nat) :
    Option (FlakeGenerator × Nat) :=
  if 4095 < g.sequence then
    match firstExceed clock g.last_time i fuel with
    | none => none
    | some j => some ({ g with sequence := 0 }, j + 1)
  else if g.last_time < clock i then
    some ({ g with sequence := 0 }, i + 1)
  else
    some (g, i + 1)

/-- Bit assembly of `FlakeGenerator::generate`:
`let mut flake: u64 = self.last_time as u64; flake <<= 22;`
then OR in `(node_id & 31) << 17`, `(thread_id & 31) << 12`, and
`sequence & 4095`. The `as u64` cast is `% 2 ^ 64`, and the `u64` shift
keeps only the low 64 bits. -/
def assemble (t node_id thread_id sequence : Nat) : Nat :=
  (((t % 2 ^ 64) <<< 22) % 2 ^ 64) |||
    ((node_id &&& 31) <<< 17) |||
    ((thread_id &&& 31) <<< 12) |||
    (sequence &&& 4095)

/-- Method `FlakeGenerator::generate`: run `check_sequence`, then capture a
fresh clock read into `last_time`, assemble the identifier from it and the
current (pre-increment) sequence, and post-increment the `u64` sequence.
Returns the identifier, the updated generator, and the index of the next
unconsumed clock read; `none` when the rollover spin never finishes. -/
def generate (g : FlakeGenerator) (clock : Clock) (i fuel : Nat) :
    Option (Nat × FlakeGenerator × Nat) :=
  match check_sequence g clock i fuel with
  | none => none
  | some (g1, j) =>
    let t := clock j
    some (assemble t g1.node_id g1.thread_id g1.sequence,
      { g1 with last_time := t, sequence := (g1.sequence + 1) % 2 ^ 64 }, j + 1)

/-- Timestamp field of an identifier: bits 63–22. -/
def ts_field (f : Nat) : Nat := f >>> 22

/-- Node field of an identifier: bits 21–17. -/
def node_field (f : Nat) : Nat := (f >>> 17) &&& 31

/-- Thread field of an identifier: bits 16–12. -/
def thread_field (f : Nat) : Nat := (f >>> 12) &&& 31

/-- Sequence field of an identifier: bits 11–0. -/
def seq_field (f : Nat) : Nat := f &&& 4095

/-- Re-encoding of decoded fields with the documented layout
`(ts << 22) | (node << 17) | (thread << 12) | seq`. -/
def reassemble (ts node thread seq : Nat) : Nat :=
  (ts <<< 22) ||| (node <<< 17) ||| (thread <<< 12) ||| seq

end FractalFlake

namespace FractalFlake

/-- Bitwise OR of operands occupying disjoint bit ranges is addition. -/
theorem lor_eq_add_of_mod (a b k : Nat) (ha : a % 2 ^ k = 0) (hb : b < 2 ^ k) :
    a ||| b = a + b := by
  obtain ⟨c, rfl⟩ := Nat.dvd_of_mod_eq_zero ha
  rw [← Nat.mul_add_lt_is_or hb]

/-- Masking with `31` is reduction modulo `32`. -/
theorem and_31_eq (n : Nat) : n &&& 31 = n % 32 := by
  have h : (31 : Nat) = 2 ^ 5 - 1 := by norm_num
  rw [h, Nat.and_pow_two_sub_one_eq_mod]

/-- Masking with `4095` is reduction modulo `4096`. -/
theorem and_4095_eq (n : Nat) : n &&& 4095 = n % 4096 := by
  have h : (4095 : Nat) = 2 ^ 12 - 1 := by norm_num
  rw [h, Nat.and_pow_two_sub_one_eq_mod]

/-- Additive form of the bit assembly: the four fields occupy disjoint bit
ranges, so the ORs are sums. -/
theorem assemble_eq_add (t n th s : Nat) :
    assemble t n th s =
      t % 2 ^ 42 * 2 ^ 22 + n % 32 * 2 ^ 17 + th % 32 * 2 ^ 12 + s % 4096 := by
  unfold assemble
  rw [and_31_eq, and_31_eq, and_4095_eq, Nat.shiftLeft_eq, Nat.shiftLeft_eq,
    Nat.shiftLeft_eq]
  have e1 : t % 2 ^ 64 * 2 ^ 22 % 2 ^ 64 = t % 2 ^ 42 * 2 ^ 22 := by omega
  rw [e1]
  rw [lor_eq_add_of_mod (t % 2 ^ 42 * 2 ^ 22) (n % 32 * 2 ^ 17) 22
    (by omega) (by omega)]
  rw [lor_eq_add_of_mod (t % 2 ^ 42 * 2 ^ 22 + n % 32 * 2 ^ 17)
    (th % 32 * 2 ^ 12) 17 (by omega) (by omega)]
  rw [lor_eq_add_of_mod (t % 2 ^ 42 * 2 ^ 22 + n % 32 * 2 ^ 17 + th % 32 * 2 ^ 12)
    (s % 4096) 12 (by omega) (by omega)]

/-- Field decoding inverts the bit assembly. -/
theorem fields_of_assemble (t n th s : Nat) :
    ts_field (assemble t n th s) = t % 2 ^ 42 ∧
    node_field (assemble t n th s) = n % 32 ∧
    thread_field (assemble t n th s) = th % 32 ∧
    seq_field (assemble t n th s) = s % 4096 := by
  unfold ts_field node_field thread_field seq_field
  rw [assemble_eq_add, and_31_eq, and_31_eq, and_4095_eq,
    Nat.shiftRight_eq_div_pow, Nat.shiftRight_eq_div_pow, Nat.shiftRight_eq_div_pow]
  refine ⟨by omega, by omega, by omega, by omega⟩

/-- Additive form of `reassemble` when the three low fields are in range. -/
theorem reassemble_eq_add (ts n th s : Nat) (hn : n < 32) (hth : th < 32)
    (hs : s < 4096) :
    reassemble ts n th s = ts * 2 ^ 22 + n * 2 ^ 17 + th * 2 ^ 12 + s := by
  unfold reassemble
  rw [Nat.shiftLeft_eq, Nat.shiftLeft_eq, Nat.shiftLeft_eq]
  rw [lor_eq_add_of_mod (ts * 2 ^ 22) (n * 2 ^ 17) 22 (by omega) (by omega)]
  rw [lor_eq_add_of_mod (ts * 2 ^ 22 + n * 2 ^ 17) (th * 2 ^ 12) 17
    (by omega) (by omega)]
  rw [lor_eq_add_of_mod (ts * 2 ^ 22 + n * 2 ^ 17 + th * 2 ^ 12) s 12
    (by omega) (by omega)]

/-- A successful spin wait exits at a read strictly above the threshold. -/
theorem firstExceed_some {clock : Clock} {lt i fuel j : Nat}
    (h : firstExceed clock lt i fuel = some j) : lt < clock j := by
  induction fuel generalizing i with
  | zero => exact absurd h (by simp [firstExceed])
  | succ fuel ih =>
    simp only [firstExceed] at h
    by_cases hc : lt < clock i
    · rw [if_pos hc] at h
      injection h with h
      exact h ▸ hc
    · rw [if_neg hc] at h
      exact ih h

/-- If no read ever strictly exceeds the threshold, the spin wait never
exits, whatever the fuel. -/
theorem firstExceed_none {clock : Clock} {lt : Nat} (hall : ∀ n, clock n ≤ lt)
    (i fuel : Nat) : firstExceed clock lt i fuel = none := by
  induction fuel generalizing i with
  | zero => rfl
  | succ fuel ih =>
    simp only [firstExceed]
    rw [if_neg (Nat.not_lt.mpr (hall i))]
    exact ih (i + 1)

/-- Case analysis for a successful `check_sequence`: either the rollover
branch ran (sequence above 4095, spin exited at a read strictly above
`last_time`, sequence reset), or the single-read branch ran and reset the
sequence exactly when the read strictly exceeded `last_time`. -/
theorem check_sequence_elim {g : FlakeGenerator} {clock : Clock} {i fuel : Nat}
    {g1 : FlakeGenerator} {j : Nat}
    (h : check_sequence g clock i fuel = some (g1, j)) :
    (4095 < g.sequence ∧ g1 = { g with sequence := 0 } ∧
      ∃ jx, j = jx + 1 ∧ g.last_time < clock jx) ∨
    (g.sequence ≤ 4095 ∧ j = i + 1 ∧
      ((g.last_time < clock i ∧ g1 = { g with sequence := 0 }) ∨
       (¬ g.last_time < clock i ∧ g1 = g))) := by
  unfold check_sequence at h
  by_cases hs : 4095 < g.sequence
  · rw [if_pos hs] at h
    cases hf : firstExceed clock g.last_time i fuel with
    | none => rw [hf] at h; cases h
    | some jx =>
      rw [hf] at h
      injection h with h
      injection h with h1 h2
      exact Or.inl ⟨hs, h1.symm, jx, h2.symm, firstExceed_some hf⟩
  · rw [if_neg hs] at h
    by_cases hc : g.last_time < clock i
    · rw [if_pos hc] at h
      injection h with h
      injection h with h1 h2
      exact Or.inr ⟨Nat.le_of_not_lt hs, h2.symm, Or.inl ⟨hc, h1.symm⟩⟩
    · rw [if_neg hc] at h
      injection h with h
      injection h with h1 h2
      exact Or.inr ⟨Nat.le_of_not_lt hs, h2.symm, Or.inr ⟨hc, h1.symm⟩⟩

/-- Elimination for a successful `generate`: it went through a successful
`check_sequence` leaving a post-check (pre-increment) sequence of at most
4095 and unchanged identity fields, captured the next clock read into
`last_time`, assembled the identifier from that read and the pre-increment
sequence, and post-incremented the sequence. -/
theorem generate_elim {g : FlakeGenerator} {clock : Clock} {i fuel : Nat}
    {f : Nat} {g' : FlakeGenerator} {j : Nat}
    (h : generate g clock i fuel = some (f, g', j)) :
    ∃ g1 jc, check_sequence g clock i fuel = some (g1, jc) ∧
      g1.sequence ≤ 4095 ∧
      g1.node_id = g.node_id ∧ g1.thread_id = g.thread_id ∧
      g1.epoch = g.epoch ∧ g1.last_time = g.last_time ∧
      f = assemble (clock jc) g1.node_id g1.thread_id g1.sequence ∧
      g' = { g1 with last_time := clock jc, sequence := (g1.sequence + 1) % 2 ^ 64 } ∧
      j = jc + 1 := by
  unfold generate at h
  cases hcs : check_sequence g clock i fuel with
  | none => rw [hcs] at h; cases h
  | some p =>
    obtain ⟨g1, jc⟩ := p
    rw [hcs] at h
    injection h with h
    injection h with h1 h2
    injection h2 with h2 h3
    have hg1 : g1.node_id = g.node_id ∧ g1.thread_id = g.thread_id ∧
        g1.epoch = g.epoch ∧ g1.last_time = g.last_time ∧
        g1.sequence ≤ 4095 := by
      rcases check_sequence_elim hcs with ⟨_, rfl, _⟩ |
        ⟨hle, _, ⟨_, rfl⟩ | ⟨_, rfl⟩⟩
      · exact ⟨rfl, rfl, rfl, rfl, Nat.zero_le 4095⟩
      · exact ⟨rfl, rfl, rfl, rfl, Nat.zero_le 4095⟩
      · exact ⟨rfl, rfl, rfl, rfl, hle⟩
    exact ⟨g1, jc, rfl, hg1.2.2.2.2, hg1.1, hg1.2.1, hg1.2.2.1, hg1.2.2.2.1,
      h1.symm, h2.symm, h3.symm⟩

/-- When the stored sequence exceeds 4095 and no clock read ever strictly
exceeds `last_time`, `generate` returns `none` for every fuel bound: the
rollover spin never finishes. -/
theorem generate_none_of_spin {g : FlakeGenerator} {clock : Clock} {i : Nat}
    (hs : 4095 < g.sequence) (hall : ∀ n, clock n ≤ g.last_time) (fuel : Nat) :
    generate g clock i fuel = none := by
  have hc : check_sequence g clock i fuel = none := by
    unfold check_sequence
    rw [if_pos hs, firstExceed_none hall i fuel]
  unfold generate
  rw [hc]

/-- Source-shaped form of the assembled identifier: truncating `last_time`
to `u64` and shifting left by 22 inside `u64` equals placing
`last_time % 2 ^ 42` at bit 22. -/
theorem assemble_eq_spec (t n th s : Nat) :
    assemble t n th s =
      ((t % 2 ^ 42) <<< 22) ||| ((n &&& 31) <<< 17) |||
        ((th &&& 31) <<< 12) ||| (s &&& 4095) := by
  have e1 : ((t % 2 ^ 64) <<< 22) % 2 ^ 64 = (t % 2 ^ 42) <<< 22 := by
    rw [Nat.shiftLeft_eq, Nat.shiftLeft_eq]
    omega
  unfold assemble
  rw [e1]

/-- C1: a successful `generate` call returns exactly
`((last_time % 2 ^ 42) <<< 22) ||| ((node_id &&& 31) <<< 17) |||
((thread_id &&& 31) <<< 12) ||| (s &&& 4095)`, where `last_time` is the
clock value captured during the call (stored into the returned state) and
`s` is the pre-increment sequence counter; decoding bits 21–17, 16–12 and
11–0 of the identifier recovers `node_id &&& 31`, `thread_id &&& 31` and
`s`. -/
theorem generate_bit_layout {g : FlakeGenerator} {clock : Clock}
    {i fuel : Nat} {f : Nat} {g' : FlakeGenerator} {j : Nat}
    (h : generate g clock i fuel = some (f, g', j)) :
    ∃ s, s ≤ 4095 ∧ g'.sequence = (s + 1) % 2 ^ 64 ∧
      f = ((g'.last_time % 2 ^ 42) <<< 22) ||| ((g.node_id &&& 31) <<< 17) |||
        ((g.thread_id &&& 31) <<< 12) ||| (s &&& 4095) ∧
      node_field f = g.node_id &&& 31 ∧
      thread_field f = g.thread_id &&& 31 ∧
      seq_field f = s := by
  obtain ⟨g1, jc, hcs, hle, hnode, hth, hep, hlt, hf, hg', hj⟩ := generate_elim h
  rw [hnode, hth] at hf
  subst hg'
  refine ⟨g1.sequence, hle, rfl, ?_, ?_, ?_, ?_⟩
  · rw [hf]
    exact assemble_eq_spec (clock jc) g.node_id g.thread_id g1.sequence
  · rw [hf, and_31_eq]
    exact (fields_of_assemble (clock jc) g.node_id g.thread_id g1.sequence).2.1
  · rw [hf, and_31_eq]
    exact (fields_of_assemble (clock jc) g.node_id g.thread_id g1.sequence).2.2.1
  · rw [hf, (fields_of_assemble (clock jc) g.node_id g.thread_id g1.sequence).2.2.2]
    omega

/-- C1 witness: a concrete call on state `⟨123, 40, 9, 5, 50⟩` with the
clock at 100. -/
theorem generate_bit_layout_witness :
    ∃ s, s ≤ 4095 ∧ (1 : Nat) = (s + 1) % 2 ^ 64 ∧
      assemble 100 40 9 0 =
        (((100 : Nat) % 2 ^ 42) <<< 22) ||| (((40 : Nat) &&& 31) <<< 17) |||
        (((9 : Nat) &&& 31) <<< 12) ||| (s &&& 4095) ∧
      node_field (assemble 100 40 9 0) = (40 : Nat) &&& 31 ∧
      thread_field (assemble 100 40 9 0) = (9 : Nat) &&& 31 ∧
      seq_field (assemble 100 40 9 0) = s :=
  @generate_bit_layout ⟨123, 40, 9, 5, 50⟩ (fun _ => 100) 0 1
    (assemble 100 40 9 0) ⟨123, 40, 9, 1, 100⟩ 2 rfl

/-- C2: with the stored sequence above 4095, `generate` cannot return while
every clock read stays at or below `last_time` (whatever the fuel bound),
and when it does return — under a monotone clock whose readings are
42-bit wall-clock millisecond counts — the new `last_time` strictly exceeds
the old, the identifier's sequence field is 0 and its timestamp field
strictly exceeds the previous 42-bit timestamp field. -/
theorem generate_rollover {g : FlakeGenerator} {clock : Clock} {i : Nat}
    (hseq : 4095 < g.sequence) :
    ((∀ n, clock n ≤ g.last_time) → ∀ fuel, generate g clock i fuel = none) ∧
    (∀ fuel f g' j, (∀ a b, a ≤ b → clock a ≤ clock b) →
      (∀ n, clock n < 2 ^ 42) → generate g clock i fuel = some (f, g', j) →
      g.last_time < g'.last_time ∧ seq_field f = 0 ∧
      g.last_time % 2 ^ 42 < ts_field f) := by
  constructor
  · exact fun hall fuel => generate_none_of_spin hseq hall fuel
  · intro fuel f g' j hmono hbound h
    obtain ⟨g1, jc, hcs, hle, hnode, hth, hep, hlt, hf, hg', hj⟩ := generate_elim h
    rcases check_sequence_elim hcs with ⟨_, hg1, jx, hjc, hx⟩ | ⟨hle2, _, _⟩
    · subst hg1 hjc hg'
      have hcap : g.last_time < clock (jx + 1) := by
        have hm := hmono jx (jx + 1) (Nat.le_succ jx)
        omega
      refine ⟨hcap, ?_, ?_⟩
      · rw [hf, (fields_of_assemble (clock (jx + 1)) _ _ _).2.2.2]
        rfl
      · rw [hf, (fields_of_assemble (clock (jx + 1)) _ _ _).1]
        have hb := hbound (jx + 1)
        omega
    · omega

/-- C2 witness: state `⟨0, 1, 2, 4096, 5⟩`; with the clock stuck at 5 a call
never returns, and with the clock at 6 the call returns an identifier with
sequence field 0 and timestamp field above the old one. -/
theorem generate_rollover_witness :
    generate ⟨0, 1, 2, 4096, 5⟩ (fun _ => 5) 0 3 = none ∧
    ((5 : Nat) < 6 ∧ seq_field (assemble 6 1 2 0) = 0 ∧
      (5 : Nat) % 2 ^ 42 < ts_field (assemble 6 1 2 0)) :=
  ⟨(@generate_rollover ⟨0, 1, 2, 4096, 5⟩ (fun _ => 5) 0 (by decide)).1
      (fun n => Nat.le_refl 5) 3,
   (@generate_rollover ⟨0, 1, 2, 4096, 5⟩ (fun _ => 6) 0 (by decide)).2 1
      (assemble 6 1 2 0) ⟨0, 1, 2, 1, 6⟩ 2 (fun a b h => Nat.le_refl 6)
      (fun n => by decide) rfl⟩

/-- Changing only the `epoch` field changes nothing in `check_sequence`
except the untouched `epoch` field of the state it returns. -/
theorem check_sequence_epoch (g : FlakeGenerator) (e : Nat) (clock : Clock)
    (i fuel : Nat) :
    check_sequence { g with epoch := e } clock i fuel =
      (check_sequence g clock i fuel).map (fun x => ({ x.1 with epoch := e }, x.2)) := by
  unfold check_sequence
  dsimp only
  by_cases hs : 4095 < g.sequence
  · rw [if_pos hs, if_pos hs]
    cases firstExceed clock g.last_time i fuel <;> rfl
  · rw [if_neg hs, if_neg hs]
    by_cases hc : g.last_time < clock i
    · rw [if_pos hc, if_pos hc]
      rfl
    · rw [if_neg hc, if_neg hc]
      rfl

/-- C3: the configured `epoch` field has no influence on `generate` — two
generators differing only in `epoch` produce identical identifiers and
identical successor states apart from that field — and the captured
`last_time` is the raw clock read (the epoch is never subtracted), embedded
directly as the 42-bit timestamp field. -/
theorem generate_epoch_independent (g : FlakeGenerator) (e : Nat)
    (clock : Clock) (i fuel : Nat) :
    generate { g with epoch := e } clock i fuel =
      (generate g clock i fuel).map
        (fun x => (x.1, { x.2.1 with epoch := e }, x.2.2)) ∧
    ∀ f g' j, generate g clock i fuel = some (f, g', j) →
      g'.last_time = clock (j - 1) ∧ ts_field f = g'.last_time % 2 ^ 42 := by
  constructor
  · unfold generate
    rw [check_sequence_epoch]
    cases check_sequence g clock i fuel with
    | none => rfl
    | some p =>
      obtain ⟨g1, jc⟩ := p
      rfl
  · intro f g' j h
    obtain ⟨g1, jc, hcs, hle, hnode, hth, hep, hlt, hf, hg', hj⟩ := generate_elim h
    subst hg' hj
    refine ⟨rfl, ?_⟩
    rw [hf, (fields_of_assemble (clock jc) _ _ _).1]

/-- C3 witness: a concrete call on state `⟨3, 1, 2, 0, 0⟩` with the epoch
overridden to 77 and the clock at 9. -/
theorem generate_epoch_independent_witness :
    generate { (⟨3, 1, 2, 0, 0⟩ : FlakeGenerator) with epoch := 77 } (fun _ => 9) 0 1 =
      (generate ⟨3, 1, 2, 0, 0⟩ (fun _ => 9) 0 1).map
        (fun x => (x.1, { x.2.1 with epoch := 77 }, x.2.2)) ∧
    ((9 : Nat) = 9 ∧ ts_field (assemble 9 1 2 0) = (9 : Nat) % 2 ^ 42) :=
  ⟨(generate_epoch_independent ⟨3, 1, 2, 0, 0⟩ 77 (fun _ => 9) 0 1).1,
   (generate_epoch_independent ⟨3, 1, 2, 0, 0⟩ 77 (fun _ => 9) 0 1).2
     (assemble 9 1 2 0) ⟨3, 1, 2, 1, 9⟩ 2 rfl⟩

/-- C4: two consecutive successful `generate` calls with every clock read in
the same millisecond `m` yield a second identifier whose sequence field is
exactly one more than the first's and whose timestamp field is equal. -/
theorem generate_same_millis {g : FlakeGenerator} {clock : Clock} {m : Nat}
    (hclock : ∀ n, clock n = m) {i fuel j1 j2 f1 f2 : Nat}
    {g1 g2 : FlakeGenerator}
    (h1 : generate g clock i fuel = some (f1, g1, j1))
    (h2 : generate g1 clock j1 fuel = some (f2, g2, j2)) :
    seq_field f2 = seq_field f1 + 1 ∧ ts_field f2 = ts_field f1 := by
  obtain ⟨a1, c1, hcs1, hle1, hn1, ht1, he1, hl1, hf1, hg1, hj1⟩ := generate_elim h1
  obtain ⟨a2, c2, hcs2, hle2, hn2, ht2, he2, hl2, hf2, hg2, hj2⟩ := generate_elim h2
  have hlast1 : g1.last_time = clock c1 := by rw [hg1]
  have hseq1 : g1.sequence = (a1.sequence + 1) % 2 ^ 64 := by rw [hg1]
  rcases check_sequence_elim hcs2 with ⟨_, _, jx, _, hx⟩ | ⟨_, _, hor⟩
  · exfalso
    rw [hlast1, hclock c1, hclock jx] at hx
    omega
  · rcases hor with ⟨hcl, _⟩ | ⟨_, hA2⟩
    · exfalso
      rw [hlast1, hclock c1, hclock j1] at hcl
      omega
    · have hs2v : a2.sequence = a1.sequence + 1 := by
        rw [hA2, hseq1]
        omega
      have hs2le : a1.sequence + 1 ≤ 4095 := by
        rw [← hs2v]
        exact hle2
      constructor
      · rw [hf1, hf2,
          (fields_of_assemble (clock c2) a2.node_id a2.thread_id a2.sequence).2.2.2,
          (fields_of_assemble (clock c1) a1.node_id a1.thread_id a1.sequence).2.2.2,
          hs2v]
        omega
      · rw [hf1, hf2,
          (fields_of_assemble (clock c2) a2.node_id a2.thread_id a2.sequence).1,
          (fields_of_assemble (clock c1) a1.node_id a1.thread_id a1.sequence).1,
          hclock c1, hclock c2]

/-- C4 witness: two concrete calls on state `⟨0, 1, 2, 0, 50⟩` with the
clock stuck at 50. -/
theorem generate_same_millis_witness :
    seq_field (assemble 50 1 2 1) = seq_field (assemble 50 1 2 0) + 1 ∧
    ts_field (assemble 50 1 2 1) = ts_field (assemble 50 1 2 0) :=
  @generate_same_millis ⟨0, 1, 2, 0, 50⟩ (fun _ => 50) 50 (fun _ => rfl)
    0 1 2 4 (assemble 50 1 2 0) (assemble 50 1 2 1)
    ⟨0, 1, 2, 1, 50⟩ ⟨0, 1, 2, 2, 50⟩ rfl rfl

/-- C5: decoding the four fields of any generated identifier and
re-encoding them with the documented layout reproduces the identifier
exactly. -/
theorem generate_roundtrip {g : FlakeGenerator} {clock : Clock}
    {i fuel : Nat} {f : Nat} {g' : FlakeGenerator} {j : Nat}
    (h : generate g clock i fuel = some (f, g', j)) :
    reassemble (ts_field f) (node_field f) (thread_field f) (seq_field f) = f := by
  obtain ⟨g1, jc, hcs, hle, hn, ht, he, hl, hf, hg', hj⟩ := generate_elim h
  subst hf
  obtain ⟨e1, e2, e3, e4⟩ :=
    fields_of_assemble (clock jc) g1.node_id g1.thread_id g1.sequence
  rw [e1, e2, e3, e4,
    reassemble_eq_add _ _ _ _ (by omega) (by omega) (by omega), assemble_eq_add]

/-- C5 witness: a concrete call on state `⟨7, 3, 4, 0, 10⟩` with the clock
at 33. -/
theorem generate_roundtrip_witness :
    reassemble (ts_field (assemble 33 3 4 0)) (node_field (assemble 33 3 4 0))
      (thread_field (assemble 33 3 4 0)) (seq_field (assemble 33 3 4 0)) =
      assemble 33 3 4 0 :=
  @generate_roundtrip ⟨7, 3, 4, 0, 10⟩ (fun _ => 33) 0 1
    (assemble 33 3 4 0) ⟨7, 3, 4, 1, 33⟩ 2 rfl

/-- C10: generators built by `new` or `fracture` satisfy `sequence ≤ 4096`,
`generate` preserves that invariant, and right after any successful call
the stored sequence lies in `[1, 4096]`; the value OR-ed into the
identifier is the pre-increment sequence, at most 4095, so the `&&& 4095`
mask never discards bits. -/
theorem sequence_invariant :
    (∀ e n t, (FlakeGenerator.new e n t).sequence ≤ 4096) ∧
    (∀ s t, (FlakeSeed.fracture s t).sequence ≤ 4096) ∧
    (∀ (g : FlakeGenerator) (clock : Clock) (i fuel f : Nat)
      (g' : FlakeGenerator) (j : Nat),
      g.sequence ≤ 4096 → generate g clock i fuel = some (f, g', j) →
      1 ≤ g'.sequence ∧ g'.sequence ≤ 4096 ∧ g'.sequence - 1 ≤ 4095 ∧
      seq_field f = g'.sequence - 1 ∧
      (g'.sequence - 1) &&& 4095 = g'.sequence - 1) := by
  refine ⟨fun e n t => Nat.zero_le 4096, fun s t => Nat.zero_le 4096, ?_⟩
  intro g clock i fuel f g' j hinv h
  obtain ⟨g1, jc, hcs, hle, hn, ht, he, hl, hf, hg', hj⟩ := generate_elim h
  have hseq : g'.sequence = g1.sequence + 1 := by
    rw [hg']
    show (g1.sequence + 1) % 2 ^ 64 = g1.sequence + 1
    omega
  refine ⟨by omega, by omega, by omega, ?_, ?_⟩
  · rw [hf, (fields_of_assemble (clock jc) g1.node_id g1.thread_id g1.sequence).2.2.2,
      hseq]
    omega
  · rw [and_4095_eq, hseq]
    omega

/-- C10 witness: a concrete call on state `⟨0, 5, 6, 1, 60⟩` with the clock
at 60. -/
theorem sequence_invariant_witness :
    1 ≤ (2 : Nat) ∧ (2 : Nat) ≤ 4096 ∧ (2 : Nat) - 1 ≤ 4095 ∧
    seq_field (assemble 60 5 6 1) = (2 : Nat) - 1 ∧
    ((2 : Nat) - 1) &&& 4095 = (2 : Nat) - 1 :=
  sequence_invariant.2.2 ⟨0, 5, 6, 1, 60⟩ (fun _ => 60) 0 1
    (assemble 60 5 6 1) ⟨0, 5, 6, 2, 60⟩ 2 (by decide) rfl

/-- C6: `from_file` assigns each recognized `key=value` line to the
matching seed field — the spec's four-line example yields
`(alpha, 9000, 3, 1000)` — later duplicate keys overwrite earlier ones, and
missing keys keep the zero defaults (empty host, `0` port/node/epoch). -/
theorem from_file_assigns :
    from_file ("host=alpha\nport=9000\nnode=3\nepoch=1000".toList) =
      Except.ok ⟨"alpha".toList, 9000, 3, 1000⟩ ∧
    from_file ("host=alpha\nhost=beta".toList) =
      Except.ok ⟨"beta".toList, 0, 0, 0⟩ ∧
    from_file ("node=3\nepoch=1000\nnode=4".toList) =
      Except.ok ⟨[], 0, 4, 1000⟩ ∧
    from_file ("port=7".toList) = Except.ok ⟨[], 7, 0, 0⟩ :=
  ⟨rfl, rfl, rfl, rfl⟩

/-- C7: `from_file` reports the out-of-range port line `port=99999` as an
invalid-port error carrying line 1 and the raw value `99999`, and the
separator-less line `badline` as a missing-equals error carrying line 1. -/
theorem from_file_error_reporting :
    from_file ("port=99999".toList) =
      Except.error (FractalError.InvalidPort 1 ("99999".toList)) ∧
    from_file ("badline".toList) =
      Except.error (FractalError.MissingEquals 1) :=
  ⟨rfl, rfl⟩

/-- C8 counterexample: on the input `host= alpha `, the stored `sync_host`
is ` alpha`, not `alpha` — only the whole line is trimmed before splitting,
so the whitespace between `=` and the value survives, refuting the claim
that values are stored with surrounding whitespace removed. -/
theorem value_whitespace_counterexample :
    from_file ("host= alpha ".toList) =
      Except.ok ⟨" alpha".toList, 0, 0, 0⟩ ∧
    (" alpha".toList : List Char) ≠ ("alpha".toList) :=
  ⟨rfl, by decide⟩

/-- C8 amended: each line is trimmed as a whole before being split at `=`,
so whitespace trailing the value is removed but whitespace between `=` and
the value is kept in the stored field. -/
theorem value_whitespace_amended :
    from_file ("host=alpha ".toList) = Except.ok ⟨"alpha".toList, 0, 0, 0⟩ ∧
    from_file ("host= alpha ".toList) =
      Except.ok ⟨" alpha".toList, 0, 0, 0⟩ :=
  ⟨rfl, rfl⟩

/-- C9: `sync` never touches `sync_host`, `sync_port` or `node_id`, and on
each of its three error outcomes (network failure, deserialization failure,
epoch string not parsing as `u128`) it leaves the entire seed unchanged. -/
theorem sync_updates_only_epoch (seed : FlakeSeed) (r : SyncResult) :
    ((sync seed r).2.sync_host = seed.sync_host ∧
      (sync seed r).2.sync_port = seed.sync_port ∧
      (sync seed r).2.node_id = seed.node_id) ∧
    (∀ e, (sync seed r).1 = Except.error e → (sync seed r).2 = seed) := by
  cases r with
  | netError => exact ⟨⟨rfl, rfl, rfl⟩, fun e _ => rfl⟩
  | deserError => exact ⟨⟨rfl, rfl, rfl⟩, fun e _ => rfl⟩
  | response s =>
    cases hp : parse_uint s (2 ^ 128 - 1) with
    | none =>
      have hs : sync seed (SyncResult.response s) =
          (Except.error FractalError.InvalidSyncEpochRecived, seed) := by
        simp only [sync, hp]
      rw [hs]
      exact ⟨⟨rfl, rfl, rfl⟩, fun e _ => rfl⟩
    | some p =>
      have hs : sync seed (SyncResult.response s) =
          (Except.ok (), { seed with epoch := p }) := by
        simp only [sync, hp]
      rw [hs]
      exact ⟨⟨rfl, rfl, rfl⟩, fun e he => Except.noConfusion he⟩

/-- C9 witness: a concrete network failure leaves the seed unchanged. -/
theorem sync_updates_only_epoch_witness :
    (sync ⟨"h".toList, 4, 5, 6⟩ SyncResult.netError).2 = ⟨"h".toList, 4, 5, 6⟩ :=
  (sync_updates_only_epoch ⟨"h".toList, 4, 5, 6⟩ SyncResult.netError).2
    (FractalError.NetworkError ("h".toList) 4) rfl

end FractalFlake
